import Mathlib

/-!
Shallow embedding of the PharmaGuard frontend interaction core:
the tag collector (drug-input.tsx), the file intake validator
(vcf-dropzone), the workflow controller (app/page.tsx) and the
progressive-reveal result renderer (results-dashboard.tsx).
Client-side strings are modelled as List Char so that every operation
is structurally recursive and evaluates inside the kernel; the JS
string methods used by the source are given explicit models below.
-/

namespace PharmaGuard

/-! ### JS string primitives used by the source -/

/-- Model of JS String.prototype.startsWith: the second list is an
initial segment of the first. -/
def jsStartsWith : List Char → List Char → Bool
  | _, [] => true
  | [], _ :: _ => false
  | c :: s, d :: m => c == d && jsStartsWith s m

/-- Model of JS String.prototype.endsWith: the second list is a final
segment of the first. -/
def jsEndsWith (s post : List Char) : Bool :=
  jsStartsWith s.reverse post.reverse

/-- Model of JS String.prototype.toLowerCase on the ASCII range. -/
def jsToLower (s : List Char) : List Char :=
  s.map Char.toLower

/-- Model of JS String.prototype.toUpperCase on the ASCII range. -/
def jsToUpper (s : List Char) : List Char :=
  s.map Char.toUpper

/-- Model of JS String.prototype.trim: strip whitespace from both ends. -/
def jsTrim (s : List Char) : List Char :=
  ((s.dropWhile Char.isWhitespace).reverse.dropWhile Char.isWhitespace).reverse

/-! ### Tag collector (drug-input.tsx) -/

/-- Normalization applied by addDrug: drug.trim().toUpperCase(). -/
def normalizeDrug (raw : List Char) : List Char :=
  jsToUpper (jsTrim raw)

/-- addDrug from drug-input.tsx: normalize, then append unless the
normalized token is empty (falsy) or already present. Returns the new
drugs list passed to onChange. -/
def addDrug (drugs : List (List Char)) (raw : List Char) : List (List Char) :=
  let normalized := normalizeDrug raw
  if normalized ≠ [] ∧ normalized ∉ drugs then drugs ++ [normalized]
  else drugs

/-- removeDrug from drug-input.tsx: drugs.filter(d =&gt; d !== drug). -/
def removeDrug (drugs : List (List Char)) (drug : List Char) :
    List (List Char) :=
  drugs.filter (fun d => d != drug)

/-- The keyboard events handleKeyDown distinguishes. -/
inductive Key
  | enter
  | comma
  | backspace
  | other
deriving DecidableEq

/-- handleKeyDown from drug-input.tsx as a pure function of the current
drugs list and free-text buffer; returns the updated pair. On Enter or
comma with a non-blank buffer it commits via addDrug, which clears the
buffer; on Backspace with an empty buffer and a non-empty drugs list it
removes drugs[drugs.length - 1]. -/
def handleKeyDown (drugs : List (List Char)) (input : List Char) (k : Key) :
    List (List Char) × List Char :=
  match k with
  | Key.enter =>
      if jsTrim input ≠ [] then (addDrug drugs input, []) else (drugs, input)
  | Key.comma =>
      if jsTrim input ≠ [] then (addDrug drugs input, []) else (drugs, input)
  | Key.backspace =>
      if input = [] ∧ 0 < drugs.length then
        (removeDrug drugs (drugs.getD (drugs.length - 1) []), input)
      else (drugs, input)
  | Key.other => (drugs, input)

/-! ### File intake validator (vcf-dropzone) -/

/-- A candidate file as the dropzone callback sees it: declared name,
byte size, and the text content a FileReader read would produce. -/
structure FileCandidate where
  name : List Char
  size : Nat
  content : List Char
deriving DecidableEq

/-- Outcome of one onDrop invocation: a file accepted into the draft,
an inline error message, or nothing (no file supplied). -/
inductive IntakeResult
  | accepted (f : FileCandidate)
  | rejected (msg : List Char)
  | ignored
deriving DecidableEq

/-- onDrop from vcf-dropzone: reject when the dropzone pre-flagged files,
then check the extension case-insensitively, then the 5 MiB size ceiling
(strict greater-than), then read the first 500 bytes and require the
literal VCF format marker at the start. -/
def onDrop (acceptedFiles : List FileCandidate) (rejectedCount : Nat) :
    IntakeResult :=
  if 0 < rejectedCount then
    IntakeResult.rejected "Invalid file. Please upload a .vcf file under 5MB.".data
  else
    match acceptedFiles with
    | [] => IntakeResult.ignored
    | file :: _ =>
      if !(jsEndsWith (jsToLower file.name) ".vcf".data) then
        IntakeResult.rejected "File must have a .vcf extension.".data
      else if 5 * 1024 * 1024 < file.size then
        IntakeResult.rejected "File exceeds 5MB limit.".data
      else if !(jsStartsWith (file.content.take 500) "##fileformat=VCF".data) then
        IntakeResult.rejected
          "Invalid VCF format. File must start with ##fileformat=VCFv4.2".data
      else
        IntakeResult.accepted file

/-! ### Analysis results (lib/utils.ts types, fields the client reads) -/

/-- llm_generated_explanation of a result item: summary plus optional
mechanism, the two fields driven through the typewriter. -/
structure LLMExplanation where
  summary : List Char
  mechanism : Option (List Char)
deriving DecidableEq

/-- A per-drug result item, restricted to the fields the embedded
components read; the explanation is optional because the card accesses
it with optional chaining. -/
structure DrugResult where
  drug : List Char
  llm_generated_explanation : Option LLMExplanation
deriving DecidableEq

/-! ### Workflow controller (app/page.tsx) -/

/-- The four workflow states of the Home component. -/
inductive AppState
  | input
  | loading
  | results
  | error
deriving DecidableEq

/-- The useState fields of the Home component (loadingStep, a purely
cosmetic label, is omitted; the timer driving it is tracked separately). -/
structure Home where
  state : AppState
  drugs : List (List Char)
  vcfFile : Option FileCandidate
  patientId : List Char
  results : List DrugResult
  error : List Char
deriving DecidableEq

/-- The initial Home state created at application start. -/
def initialHome : Home :=
  { state := AppState.input
    drugs := []
    vcfFile := none
    patientId := "PATIENT_001".data
    results := []
    error := [] }

/-- canSubmit from page.tsx: drugs.length &gt; 0 and vcfFile not null. -/
def canSubmit (h : Home) : Bool :=
  decide (0 < h.drugs.length) && h.vcfFile.isSome

/-- handleReset from page.tsx: back to input, clear drugs, file, results
and error. It does not touch patientId. -/
def handleReset (h : Home) : Home :=
  { h with
    state := AppState.input
    drugs := []
    vcfFile := none
    results := []
    error := [] }

/-- Bookkeeping for the loading-step interval of one handleSubmit run:
whether it is still scheduled, how many times clearInterval was invoked
on it, and how many of those invocations actually deactivated it. -/
structure TimerLog where
  active : Bool
  clearCalls : Nat
  stops : Nat
deriving DecidableEq

/-- One clearInterval invocation: counts the call, and counts a stop
only when the interval was still scheduled. -/
def clearTimer (t : TimerLog) : TimerLog :=
  { active := false
    clearCalls := t.clearCalls + 1
    stops := t.stops + (if t.active then 1 else 0) }

/-- How one fetch of POST /analyze resolves, as seen by handleSubmit:
the fetch promise itself rejects (transport failure, thrown before the
first clearInterval), the response is non-2xx with an optional JSON
detail field (its body read has its own catch), the response is HTTP 2xx
but response.json() rejects because the body is unparseable (that await
has no catch of its own, so the error propagates to the outer catch), or
a parsed JSON payload with a status string, an optional errors array and
a results array arrives with HTTP 2xx. -/
inductive FetchOutcome
  | transportFailure (msg : List Char)
  | httpFailure (detail : Option (List Char)) (status : Nat)
  | jsonFailure (msg : List Char)
  | payload (status : List Char) (errors : Option (List (List Char)))
      (results : List DrugResult)
deriving DecidableEq

/-- Message thrown on a non-2xx response: errData.detail with a fall
back to the HTTP status template when the detail field is absent or
falsy (a failed body parse is encoded as detail = some of the literal
fallback the catch substitutes). -/
def httpErrorMessage (detail : Option (List Char)) (status : Nat) : List Char :=
  match detail with
  | some d => if d ≠ [] then d else "HTTP ".data ++ (toString status).data
  | none => "HTTP ".data ++ (toString status).data

/-- Message thrown on a non-success payload status:
data.errors?.join(&quot;, &quot;) with a fall back to the generic message
when the errors field is absent or the join is empty (falsy). -/
def joinErrors (errors : Option (List (List Char))) : List Char :=
  match errors with
  | some es =>
      let j := List.intercalate ", ".data es
      if j ≠ [] then j else "Analysis failed".data
  | none => "Analysis failed".data

/-- handleSubmit from page.tsx as a pure function of the starting Home
state and the fetch outcome. It guards on canSubmit, enters loading,
starts the loading-step interval, and follows the try/catch control
flow of the source: clearInterval after fetch resolves, a throw on
non-ok responses and on non-success payload status, and a catch that
clears the interval again and enters the error state. Returns the final
Home state and the timer bookkeeping. -/
def handleSubmit (h : Home) (out : FetchOutcome) : Home × TimerLog :=
  if !(canSubmit h) then
    (h, { active := false, clearCalls := 0, stops := 0 })
  else
    let h1 : Home := { h with state := AppState.loading, error := [] }
    let t0 : TimerLog := { active := true, clearCalls := 0, stops := 0 }
    match out with
    | FetchOutcome.transportFailure msg =>
        let t1 := clearTimer t0
        ({ h1 with error := msg, state := AppState.error }, t1)
    | FetchOutcome.httpFailure detail status =>
        let t1 := clearTimer t0
        let t2 := clearTimer t1
        ({ h1 with error := httpErrorMessage detail status,
                   state := AppState.error }, t2)
    | FetchOutcome.jsonFailure msg =>
        let t1 := clearTimer t0
        let t2 := clearTimer t1
        ({ h1 with error := msg, state := AppState.error }, t2)
    | FetchOutcome.payload status errors rs =>
        let t1 := clearTimer t0
        if status ≠ "success".data then
          let t2 := clearTimer t1
          ({ h1 with error := joinErrors errors, state := AppState.error }, t2)
        else
          ({ h1 with results := rs, state := AppState.results }, t1)

/-- clearInterval invocations handleSubmit performs for each way the
fetch can resolve, read off the source control flow. -/
def clearCallsOn (out : FetchOutcome) : Nat :=
  match out with
  | FetchOutcome.transportFailure _ => 1
  | FetchOutcome.httpFailure _ _ => 2
  | FetchOutcome.jsonFailure _ => 2
  | FetchOutcome.payload status _ _ =>
      if status ≠ "success".data then 2 else 1

/-! ### Typewriter hook (results-dashboard.tsx, useTypewriter) -/

/-- Local state of one useTypewriter run: the displayed text, the done
flag, the tick counter i of the effect closure, and whether the interval
is still scheduled. -/
structure TwState where
  displayed : List Char
  done : Bool
  i : Nat
  active : Bool
deriving DecidableEq

/-- State right after the effect body runs: displayed reset to empty,
done false, i = 0, interval scheduled. -/
def twInit : TwState :=
  { displayed := [], done := false, i := 0, active := true }

/-- One interval tick of useTypewriter for input text: increment i, show
text.slice(0, i), and when i reaches the text length clear the interval
and set done. A tick of an already cleared interval is a no-op. -/
def twTick (text : List Char) (s : TwState) : TwState :=
  if s.active then
    let i := s.i + 1
    let displayed := text.take i
    if text.length ≤ i then
      { displayed := displayed, done := true, i := i, active := false }
    else
      { displayed := displayed, done := s.done, i := i, active := s.active }
  else s

/-- The typewriter state after t ticks on a fixed input text. -/
def twRun (text : List Char) : Nat → TwState
  | 0 => twInit
  | t + 1 => twTick text (twRun text t)

/-! ### Result card display state (results-dashboard.tsx, ResultCard) -/

/-- summary string the card feeds the first typewriter:
result.llm_generated_explanation?.summary || "". -/
def summaryOf (r : DrugResult) : List Char :=
  match r.llm_generated_explanation with
  | some e => e.summary
  | none => []

/-- mechanism string of the card:
result.llm_generated_explanation?.mechanism || "". -/
def mechanismOf (r : DrugResult) : List Char :=
  match r.llm_generated_explanation with
  | some e => e.mechanism.getD []
  | none => []

/-- Input the mechanism typewriter receives:
expanded &amp;&amp; summaryDone ? mechanism : "". -/
def mechInput (mech : List Char) (expanded sDone : Bool) : List Char :=
  if expanded && sDone then mech else []

/-- Display state of one ResultCard: the expand and raw-JSON toggles,
the summary typewriter, and the mechanism typewriter together with the
input text its current effect run was started on. -/
structure CardState where
  expanded : Bool
  showJSON : Bool
  sTw : TwState
  mText : List Char
  mTw : TwState
deriving DecidableEq

/-- Card state on mount: collapsed, raw JSON hidden, both typewriters
freshly started (the mechanism one on the empty string, since the card
mounts collapsed). -/
def cardInit : CardState :=
  { expanded := false, showJSON := false
    sTw := twInit, mText := [], mTw := twInit }

/-- Re-run of the mechanism typewriter effect when its input text
changed: the effect body resets displayed and done and restarts the
interval; when the input is unchanged nothing happens. -/
def reconcile (mech : List Char) (c : CardState) : CardState :=
  let newText := mechInput mech c.expanded c.sTw.done
  if newText = c.mText then c
  else { c with mText := newText, mTw := twInit }

/-- Events that change a card's display state: a summary interval tick,
a mechanism interval tick, the expand/collapse button, the raw-JSON
button. -/
inductive CardEv
  | sTick
  | mTick
  | toggleExpand
  | toggleJSON
deriving DecidableEq

/-- One event step of a card for a result with the given summary and
mechanism texts. Ticking the summary typewriter and toggling expansion
can change the mechanism typewriter's input, so both reconcile it. -/
def cardStep (summary mech : List Char) (c : CardState) (e : CardEv) :
    CardState :=
  match e with
  | CardEv.sTick => reconcile mech { c with sTw := twTick summary c.sTw }
  | CardEv.mTick => { c with mTw := twTick c.mText c.mTw }
  | CardEv.toggleExpand => reconcile mech { c with expanded := !c.expanded }
  | CardEv.toggleJSON => { c with showJSON := !c.showJSON }

/-- Card state after a list of events, most recent event first. -/
def cardRun (summary mech : List Char) : List CardEv → CardState
  | [] => cardInit
  | e :: es => cardStep summary mech (cardRun summary mech es) e

/-- Number of summary interval ticks in an event list. -/
def sTickCount : List CardEv → Nat
  | [] => 0
  | CardEv.sTick :: es => sTickCount es + 1
  | _ :: es => sTickCount es

/-- The mechanism text the card renders: the markup shows typedMechanism
only inside the expanded section and only when mechanism is non-empty. -/
def visibleMechanism (mech : List Char) (c : CardState) : List Char :=
  if c.expanded && !mech.isEmpty then c.mTw.displayed else []

/-- A Home state with one drug and an accepted file, i.e. a state from
which the submit button is enabled. -/
def sampleHome : Home :=
  { initialHome with
    drugs := ["WARFARIN".data]
    vcfFile := some ⟨"a.vcf".data, 100, "##fileformat=VCFv4.2".data⟩ }

end PharmaGuard

namespace PharmaGuard

/-! ### Claim C2: reset -/

/-- Claim C2 (amended): handleReset returns the workflow to Input and
clears the drug set, the accepted file, the results and the error from
any starting state, and is idempotent; it leaves the patient identifier
unchanged rather than restoring it to its default. -/
theorem handleReset_clears (h : Home) :
    (handleReset h).state = AppState.input ∧
    (handleReset h).drugs = [] ∧
    (handleReset h).vcfFile = none ∧
    (handleReset h).results = [] ∧
    (handleReset h).error = [] ∧
    (handleReset h).patientId = h.patientId ∧
    handleReset (handleReset h) = handleReset h := by
  simp [handleReset]

/-- Claim C2 counterexample: resetting from the Error state with patient
identifier "ZZZ" leaves it at "ZZZ"; it is not returned to the default
"PATIENT_001" as the claim states. -/
theorem handleReset_keeps_patientId :
    (handleReset { initialHome with patientId := "ZZZ".data, state := AppState.error }).patientId = "ZZZ".data ∧
    (handleReset { initialHome with patientId := "ZZZ".data, state := AppState.error }).patientId ≠ initialHome.patientId := by
  decide

/-! ### Claim C3: file intake evaluation -/

/-- Claim C3: for every candidate file, a name not ending in .vcf
case-insensitively is rejected regardless of content; a .vcf file of
6 MiB is rejected for size; a .vcf file under the 5 MiB ceiling whose
first 500 bytes do not start with the format marker is rejected with the
content-header error; and a .vcf file under the ceiling whose first
bytes do start with the marker is accepted. -/
theorem intake_evaluation (f : FileCandidate) :
    (jsEndsWith (jsToLower f.name) ".vcf".data = false →
      onDrop [f] 0 = IntakeResult.rejected "File must have a .vcf extension.".data) ∧
    (jsEndsWith (jsToLower f.name) ".vcf".data = true →
      f.size = 6 * 1024 * 1024 →
      onDrop [f] 0 = IntakeResult.rejected "File exceeds 5MB limit.".data) ∧
    (jsEndsWith (jsToLower f.name) ".vcf".data = true →
      f.size ≤ 5 * 1024 * 1024 →
      jsStartsWith (f.content.take 500) "##fileformat=VCF".data = false →
      onDrop [f] 0 = IntakeResult.rejected
        "Invalid VCF format. File must start with ##fileformat=VCFv4.2".data) ∧
    (jsEndsWith (jsToLower f.name) ".vcf".data = true →
      f.size ≤ 5 * 1024 * 1024 →
      jsStartsWith (f.content.take 500) "##fileformat=VCF".data = true →
      onDrop [f] 0 = IntakeResult.accepted f) := by
  refine ⟨fun h1 => ?_, fun h1 h2 => ?_, fun h1 h2 h3 => ?_, fun h1 h2 h3 => ?_⟩
  · simp [onDrop, h1]
  · have hs : 5 * 1024 * 1024 < f.size := by omega
    simp [onDrop, h1, hs]
  · have hs : ¬ (5 * 1024 * 1024 < f.size) := by omega
    simp [onDrop, h1, hs, h3]
  · have hs : ¬ (5 * 1024 * 1024 < f.size) := by omega
    simp [onDrop, h1, hs, h3]

/-- Witness for C3 at four concrete files: sample.txt rejected for its
extension, a 6 MiB sample.vcf rejected for size, a small sample.vcf with
a wrong header rejected for content, a small sample.vcf with a VCF
header accepted. -/
theorem intake_evaluation_witness :
    onDrop [⟨"sample.txt".data, 10, "##fileformat=VCFv4.2".data⟩] 0 =
      IntakeResult.rejected "File must have a .vcf extension.".data ∧
    onDrop [⟨"sample.vcf".data, 6 * 1024 * 1024, "##fileformat=VCFv4.2".data⟩] 0 =
      IntakeResult.rejected "File exceeds 5MB limit.".data ∧
    onDrop [⟨"sample.vcf".data, 10, "not a vcf".data⟩] 0 =
      IntakeResult.rejected
        "Invalid VCF format. File must start with ##fileformat=VCFv4.2".data ∧
    onDrop [⟨"sample.vcf".data, 10, "##fileformat=VCFv4.2\nbody".data⟩] 0 =
      IntakeResult.accepted ⟨"sample.vcf".data, 10, "##fileformat=VCFv4.2\nbody".data⟩ :=
  ⟨(intake_evaluation _).1 (by decide),
   (intake_evaluation _).2.1 (by decide) rfl,
   (intake_evaluation _).2.2.1 (by decide) (by decide) (by decide),
   (intake_evaluation _).2.2.2 (by decide) (by decide) (by decide)⟩

/-! ### Claim C9: the content marker is version-agnostic -/

/-- Claim C9: for a .vcf file under the size ceiling, acceptance is
exactly that the first 500 bytes start with the literal
"##fileformat=VCF", so any VCF version header is accepted, while the
rejection message on mismatch names VCFv4.2 specifically. -/
theorem marker_condition (f : FileCandidate)
    (h1 : jsEndsWith (jsToLower f.name) ".vcf".data = true)
    (h2 : f.size ≤ 5 * 1024 * 1024) :
    (onDrop [f] 0 = IntakeResult.accepted f ↔
      jsStartsWith (f.content.take 500) "##fileformat=VCF".data = true) ∧
    (jsStartsWith (f.content.take 500) "##fileformat=VCF".data = false →
      onDrop [f] 0 = IntakeResult.rejected
        "Invalid VCF format. File must start with ##fileformat=VCFv4.2".data) := by
  have hs : ¬ (5 * 1024 * 1024 < f.size) := by omega
  constructor
  · constructor
    · intro hacc
      by_contra hns
      have hns' : jsStartsWith (f.content.take 500) "##fileformat=VCF".data = false := by
        simpa using hns
      simp [onDrop, h1, hs, hns'] at hacc
    · intro hsw
      simp [onDrop, h1, hs, hsw]
  · intro hsw
    simp [onDrop, h1, hs, hsw]

/-- Witness for C9: files with VCFv4.1 and VCFv4.3 headers are accepted,
and a mismatching file is rejected with the message naming VCFv4.2. -/
theorem marker_condition_witness :
    onDrop [⟨"a.vcf".data, 100, "##fileformat=VCFv4.1\n".data⟩] 0 =
      IntakeResult.accepted ⟨"a.vcf".data, 100, "##fileformat=VCFv4.1\n".data⟩ ∧
    onDrop [⟨"b.vcf".data, 100, "##fileformat=VCFv4.3\n".data⟩] 0 =
      IntakeResult.accepted ⟨"b.vcf".data, 100, "##fileformat=VCFv4.3\n".data⟩ ∧
    onDrop [⟨"c.vcf".data, 100, "random text".data⟩] 0 =
      IntakeResult.rejected
        "Invalid VCF format. File must start with ##fileformat=VCFv4.2".data :=
  ⟨(marker_condition _ (by decide) (by decide)).1.mpr (by decide),
   (marker_condition _ (by decide) (by decide)).1.mpr (by decide),
   (marker_condition _ (by decide) (by decide)).2 (by decide)⟩

/-! ### Claim C10: the size ceiling is exclusive at the boundary -/

/-- Claim C10: a .vcf file of exactly 5 × 1024 × 1024 bytes passes the
size check (rejection uses strict greater-than) and is accepted when its
header matches; only strictly larger files are rejected for size. -/
theorem size_ceiling_exclusive (f : FileCandidate)
    (h1 : jsEndsWith (jsToLower f.name) ".vcf".data = true) :
    (f.size = 5 * 1024 * 1024 →
      jsStartsWith (f.content.take 500) "##fileformat=VCF".data = true →
      onDrop [f] 0 = IntakeResult.accepted f) ∧
    (5 * 1024 * 1024 < f.size →
      onDrop [f] 0 = IntakeResult.rejected "File exceeds 5MB limit.".data) := by
  constructor
  · intro h2 h3
    have hs : ¬ (5 * 1024 * 1024 < f.size) := by omega
    simp [onDrop, h1, hs, h3]
  · intro h2
    simp [onDrop, h1, h2]

/-- Witness for C10: a 5242880-byte .vcf file with a matching header is
accepted, and a 5242881-byte one is rejected for size. -/
theorem size_ceiling_exclusive_witness :
    onDrop [⟨"big.vcf".data, 5 * 1024 * 1024, "##fileformat=VCFv4.2".data⟩] 0 =
      IntakeResult.accepted
        ⟨"big.vcf".data, 5 * 1024 * 1024, "##fileformat=VCFv4.2".data⟩ ∧
    onDrop [⟨"big.vcf".data, 5 * 1024 * 1024 + 1, "##fileformat=VCFv4.2".data⟩] 0 =
      IntakeResult.rejected "File exceeds 5MB limit.".data :=
  ⟨(size_ceiling_exclusive _ (by decide)).1 rfl (by decide),
   (size_ceiling_exclusive _ (by decide)).2 (by decide)⟩

/-! ### Claim C5: idempotent token insertion -/

/-- Claim C5: addDrug normalizes its argument by trimming and
upper-casing, is a no-op when the normalized token is empty or already
present, otherwise appends it at the end; in particular adding the same
raw string twice yields the same list as adding it once. -/
theorem addDrug_idempotent (drugs : List (List Char)) (raw : List Char) :
    (addDrug (addDrug drugs raw) raw = addDrug drugs raw) ∧
    (normalizeDrug raw = jsToUpper (jsTrim raw)) ∧
    (normalizeDrug raw = [] ∨ normalizeDrug raw ∈ drugs →
      addDrug drugs raw = drugs) ∧
    (normalizeDrug raw ≠ [] → normalizeDrug raw ∉ drugs →
      addDrug drugs raw = drugs ++ [normalizeDrug raw]) := by
  refine ⟨?_, rfl, ?_, ?_⟩
  · by_cases h : normalizeDrug raw ≠ [] ∧ normalizeDrug raw ∉ drugs
    · have h1 : addDrug drugs raw = drugs ++ [normalizeDrug raw] := by
        simp only [addDrug, if_pos h]
      rw [h1]
      simp only [addDrug]
      rw [if_neg]
      intro hcon
      exact hcon.2 (by simp)
    · have h1 : addDrug drugs raw = drugs := by
        simp only [addDrug, if_neg h]
      rw [h1, h1]
  · intro h
    simp only [addDrug]
    rw [if_neg]
    intro hcon
    rcases h with h | h
    · exact hcon.1 h
    · exact hcon.2 h
  · intro h1 h2
    simp only [addDrug, if_pos (And.intro h1 h2)]

/-- Witness for C5: adding " warfarin " to the empty list appends the
normalized token WARFARIN, doing it a second time changes nothing, and
adding "warfarin" when WARFARIN is already present is a no-op. -/
theorem addDrug_idempotent_witness :
    addDrug (addDrug [] " warfarin ".data) " warfarin ".data =
      addDrug [] " warfarin ".data ∧
    addDrug ["WARFARIN".data] "warfarin".data = ["WARFARIN".data] ∧
    addDrug [] " warfarin ".data = [] ++ [normalizeDrug " warfarin ".data] :=
  ⟨(addDrug_idempotent [] " warfarin ".data).1,
   (addDrug_idempotent ["WARFARIN".data] "warfarin".data).2.2.1
     (Or.inr (by decide)),
   (addDrug_idempotent [] " warfarin ".data).2.2.2 (by decide) (by decide)⟩

/-! ### Claim C8: backspace removes the last token -/

/-- The element read at index length - 1 belongs to the list when the
list is non-empty. -/
theorem getD_last_mem {α : Type} (l : List α) (d : α) (hne : l ≠ []) :
    l.getD (l.length - 1) d ∈ l := by
  have hlt : l.length - 1 < l.length := by
    cases l with
    | nil => exact absurd rfl hne
    | cons a t => simp
  rw [List.getD_eq_getElem?_getD, List.getElem?_eq_getElem hlt]
  simp [List.getElem_mem]

/-- Filtering out the element at the last index of a duplicate-free
non-empty list yields exactly the list without its last element. -/
theorem filter_ne_last {α : Type} [BEq α] [LawfulBEq α] (d : α) :
    ∀ l : List α, l.Nodup → l ≠ [] →
      l.filter (fun x => x != l.getD (l.length - 1) d) = l.dropLast := by
  intro l
  induction l with
  | nil => intro _ h; exact absurd rfl h
  | cons a t ih =>
    intro hnd _
    cases t with
    | nil => simp
    | cons b t2 =>
      have hlast : (a :: b :: t2).getD ((a :: b :: t2).length - 1) d
          = (b :: t2).getD ((b :: t2).length - 1) d := by
        simp
      rw [hlast]
      have hmem : (b :: t2).getD ((b :: t2).length - 1) d ∈ b :: t2 :=
        getD_last_mem _ _ (by simp)
      have hane : a ≠ (b :: t2).getD ((b :: t2).length - 1) d := by
        intro he
        exact (List.nodup_cons.mp hnd).1 (he ▸ hmem)
      rw [List.filter_cons]
      have hcond : (a != (b :: t2).getD ((b :: t2).length - 1) d) = true := by
        simpa using hane
      rw [if_pos hcond]
      rw [ih (List.nodup_cons.mp hnd).2 (by simp)]
      simp [List.dropLast]

/-- Claim C8: with a duplicate-free non-empty token list and an empty
entry buffer, Backspace removes exactly the last token, leaving N - 1;
with a non-empty buffer, or an empty token list, Backspace leaves the
pair unchanged. -/
theorem backspace_removes_last (drugs : List (List Char)) (input : List Char) :
    (drugs.Nodup → drugs ≠ [] →
      (handleKeyDown drugs [] Key.backspace).1 = drugs.dropLast ∧
      (handleKeyDown drugs [] Key.backspace).1.length = drugs.length - 1) ∧
    (input ≠ [] → handleKeyDown drugs input Key.backspace = (drugs, input)) ∧
    (handleKeyDown [] input Key.backspace = ([], input)) := by
  refine ⟨fun hnd hne => ?_, fun hi => ?_, ?_⟩
  · have hpos : 0 < drugs.length := List.length_pos.mpr hne
    have heq : (handleKeyDown drugs [] Key.backspace).1 = drugs.dropLast := by
      simp only [handleKeyDown, removeDrug]
      split_ifs with hcond
      · simpa using filter_ne_last [] drugs hnd hne
      · exact absurd ⟨by trivial, hpos⟩ hcond
    exact ⟨heq, by rw [heq, List.length_dropLast]⟩
  · simp only [handleKeyDown]
    rw [if_neg]
    intro hcon
    exact hi hcon.1
  · simp [handleKeyDown]

/-- Witness for C8: on tokens A, B with an empty buffer Backspace
yields the list without its last element, while a non-empty buffer or
an empty token list leaves everything unchanged. -/
theorem backspace_removes_last_witness :
    ["A".data, "B".data].Nodup ∧
    (handleKeyDown ["A".data, "B".data] [] Key.backspace).1 =
      ["A".data, "B".data].dropLast ∧
    handleKeyDown ["A".data] "x".data Key.backspace = (["A".data], "x".data) ∧
    handleKeyDown [] "x".data Key.backspace = ([], "x".data) :=
  ⟨by decide,
   ((backspace_removes_last ["A".data, "B".data] []).1 (by decide) (by decide)).1,
   (backspace_removes_last ["A".data] "x".data).2.1 (by decide),
   (backspace_removes_last [] "x".data).2.2⟩

/-! ### Claim C7: the typewriter timeline -/

/-- Closed form of the typewriter run: while ticks are below the
threshold max(length, 1) the interval is live, nothing is marked done
and the displayed text is the tick-count prefix; from the threshold on
the full text is displayed, done is set and the interval is cleared. -/
theorem twRun_closed (text : List Char) (t : Nat) :
    twRun text t =
      if t < max text.length 1 then
        { displayed := text.take t, done := false, i := t, active := true }
      else
        { displayed := text, done := true, i := max text.length 1,
          active := false } := by
  induction t with
  | zero =>
    have h : 0 < max text.length 1 :=
      lt_of_lt_of_le Nat.one_pos (le_max_right _ _)
    simp [twRun, twInit, h]
  | succ t ih =>
    simp only [twRun]
    rw [ih]
    by_cases h : t < max text.length 1
    · rw [if_pos h]
      by_cases h2 : text.length ≤ t + 1
      · have h3 : ¬ (t + 1 < max text.length 1) := by omega
        rw [if_neg h3]
        simp only [twTick, if_pos rfl]
        simp [h2, List.take_of_length_le h2]
        omega
      · have h3 : t + 1 < max text.length 1 := by omega
        rw [if_pos h3]
        simp [twTick, h2]
    · rw [if_neg h]
      have h3 : ¬ (t + 1 < max text.length 1) := by omega
      rw [if_neg h3]
      simp [twTick]

/-- Claim C7: for an input of length L, the displayed text after t ticks
is the prefix of length min(t, L), so it grows by exactly one character
per tick until reaching exactly L, where it stops (no truncation, no
overshoot); the done flag is set precisely from the single completion
threshold on, with the interval cleared there. -/
theorem typewriter_reveal (text : List Char) (t : Nat) :
    ((twRun text t).displayed = text.take (min t text.length)) ∧
    ((twRun text t).displayed.length = min t text.length) ∧
    (t < text.length →
      (twRun text (t + 1)).displayed.length =
        (twRun text t).displayed.length + 1) ∧
    (text.length ≤ t → (twRun text t).displayed = text) ∧
    ((twRun text t).done = true ↔ max text.length 1 ≤ t) ∧
    ((twRun text t).active = true ↔ t < max text.length 1) := by
  have hlen : ∀ u : Nat, (twRun text u).displayed.length = min u text.length := by
    intro u
    rw [twRun_closed]
    split_ifs with hu
    · simp [List.length_take]
    · simp
      omega
  refine ⟨?_, hlen t, ?_, ?_, ?_, ?_⟩
  · rw [twRun_closed]
    split_ifs with h
    · have hm : min t text.length = t := by omega
      rw [hm]
    · have hm : min t text.length = text.length := by omega
      rw [hm, List.take_length]
  · intro hlt
    rw [hlen t, hlen (t + 1)]
    omega
  · intro hge
    rw [twRun_closed]
    split_ifs with h
    · have hz : text.length = 0 := by omega
      have hnil : text = [] := List.length_eq_zero.mp hz
      subst hnil
      simp
    · rfl
  · rw [twRun_closed]
    split_ifs with h <;> simp <;> omega
  · rw [twRun_closed]
    split_ifs with h <;> simp <;> omega

/-- Witness for C7 on the two-character input "hi": after one tick one
character shows and the run is not done, the second tick adds exactly
one character, and after two ticks the whole text shows, done holds and
the interval is cleared. -/
theorem typewriter_reveal_witness :
    (twRun "hi".data 1).displayed.length = min 1 ("hi".data).length ∧
    (twRun "hi".data 2).displayed.length = (twRun "hi".data 1).displayed.length + 1 ∧
    (twRun "hi".data 2).displayed = "hi".data ∧
    (twRun "hi".data 2).done = true ∧
    ((twRun "hi".data 2).active = true ↔ 2 < max ("hi".data).length 1) :=
  ⟨(typewriter_reveal "hi".data 1).2.1,
   (typewriter_reveal "hi".data 1).2.2.1 (by decide),
   (typewriter_reveal "hi".data 2).2.2.2.1 (by decide),
   (typewriter_reveal "hi".data 2).2.2.2.2.1.mpr (by decide),
   (typewriter_reveal "hi".data 2).2.2.2.2.2⟩

/-! ### Claim C6: mechanism reveal is gated behind the summary -/

/-- Reconciling the mechanism typewriter never changes the expand flag. -/
theorem reconcile_expanded (mech : List Char) (c : CardState) :
    (reconcile mech c).expanded = c.expanded := by
  simp only [reconcile]
  split_ifs <;> rfl

/-- Reconciling the mechanism typewriter never touches the summary
typewriter. -/
theorem reconcile_sTw (mech : List Char) (c : CardState) :
    (reconcile mech c).sTw = c.sTw := by
  simp only [reconcile]
  split_ifs <;> rfl

/-- After reconciling, the mechanism typewriter input agrees with the
gate expanded AND summary-done. -/
theorem reconcile_mText (mech : List Char) (c : CardState) :
    (reconcile mech c).mText = mechInput mech c.expanded c.sTw.done := by
  simp only [reconcile]
  split_ifs with h
  · exact h.symm
  · rfl

/-- One typewriter tick preserves the fact that the displayed text is
the i-prefix of the input text. -/
theorem twTick_take (text : List Char) (s : TwState)
    (h : s.displayed = text.take s.i) :
    (twTick text s).displayed = text.take (twTick text s).i := by
  simp only [twTick]
  split_ifs <;> simp [h]

/-- Invariant of the card state machine: the mechanism typewriter input
always agrees with the gate, and its displayed text is always a prefix
of that input. -/
theorem cardRun_inv (summary mech : List Char) (evs : List CardEv) :
    (cardRun summary mech evs).mText =
      mechInput mech (cardRun summary mech evs).expanded
        (cardRun summary mech evs).sTw.done ∧
    (cardRun summary mech evs).mTw.displayed =
      (cardRun summary mech evs).mText.take (cardRun summary mech evs).mTw.i := by
  induction evs with
  | nil => exact ⟨rfl, rfl⟩
  | cons e es ih =>
    obtain ⟨ih1, ih2⟩ := ih
    cases e with
    | sTick =>
      constructor
      · simp only [cardRun, cardStep]
        rw [reconcile_mText, reconcile_expanded, reconcile_sTw]
      · simp only [cardRun, cardStep, reconcile]
        split_ifs with h
        · exact ih2
        · rfl
    | mTick =>
      constructor
      · simp only [cardRun, cardStep]
        exact ih1
      · simp only [cardRun, cardStep]
        exact twTick_take _ _ ih2
    | toggleExpand =>
      constructor
      · simp only [cardRun, cardStep]
        rw [reconcile_mText, reconcile_expanded, reconcile_sTw]
      · simp only [cardRun, cardStep, reconcile]
        split_ifs with h
        · exact ih2
        · rfl
    | toggleJSON =>
      constructor
      · simp only [cardRun, cardStep]
        exact ih1
      · simp only [cardRun, cardStep]
        exact ih2

/-- The summary typewriter after any event sequence is exactly the plain
typewriter run on the number of summary ticks: neither expanding,
collapsing, nor mechanism ticks touch it. -/
theorem cardRun_sTw (summary mech : List Char) (evs : List CardEv) :
    (cardRun summary mech evs).sTw = twRun summary (sTickCount evs) := by
  induction evs with
  | nil => rfl
  | cons e es ih =>
    cases e with
    | sTick =>
      simp only [cardRun, cardStep, sTickCount]
      rw [reconcile_sTw]
      simp only [twRun]
      rw [ih]
    | mTick =>
      simp only [cardRun, cardStep, sTickCount]
      exact ih
    | toggleExpand =>
      simp only [cardRun, cardStep, sTickCount]
      rw [reconcile_sTw]
      exact ih
    | toggleJSON =>
      simp only [cardRun, cardStep, sTickCount]
      exact ih

/-- Claim C6: in every reachable display state of a result card, visible
mechanism text implies the summary timeline is complete (and the card is
expanded) — the mechanism timeline starts only once expanded AND summary
done — and the summary timeline depends only on its own tick count, so
collapsing never cancels an in-flight summary timeline. -/
theorem mechanism_gated (summary mech : List Char) (evs : List CardEv) :
    (visibleMechanism mech (cardRun summary mech evs) ≠ [] →
      (cardRun summary mech evs).sTw.done = true ∧
      (cardRun summary mech evs).expanded = true) ∧
    ((cardRun summary mech evs).sTw = twRun summary (sTickCount evs)) := by
  refine ⟨fun hv => ?_, cardRun_sTw summary mech evs⟩
  obtain ⟨h1, h2⟩ := cardRun_inv summary mech evs
  by_cases hcond :
      ((cardRun summary mech evs).expanded && !mech.isEmpty) = true
  · have hdisp : (cardRun summary mech evs).mTw.displayed ≠ [] := by
      intro h0
      exact hv (by simp [visibleMechanism, hcond, h0])
    have hmt : (cardRun summary mech evs).mText ≠ [] := by
      intro h0
      rw [h2, h0] at hdisp
      exact hdisp (List.take_nil)
    rw [h1] at hmt
    simp only [mechInput] at hmt
    by_cases hd :
        ((cardRun summary mech evs).expanded &&
          (cardRun summary mech evs).sTw.done) = true
    · simp only [Bool.and_eq_true] at hd
      exact ⟨hd.2, hd.1⟩
    · rw [if_neg hd] at hmt
      exact absurd rfl hmt
  · exact absurd (by simp [visibleMechanism, hcond]) hv

/-- Witness for C6: expand the card, tick the summary to completion,
tick the mechanism once — mechanism text is visible and the summary
timeline is indeed done. -/
theorem mechanism_gated_witness :
    visibleMechanism "b".data
      (cardRun "a".data "b".data
        [CardEv.mTick, CardEv.sTick, CardEv.toggleExpand]) ≠ [] ∧
    (cardRun "a".data "b".data
      [CardEv.mTick, CardEv.sTick, CardEv.toggleExpand]).sTw.done = true :=
  ⟨by decide,
   ((mechanism_gated "a".data "b".data
      [CardEv.mTick, CardEv.sTick, CardEv.toggleExpand]).1 (by decide)).1⟩

/-! ### Claim C1: the loading-step interval -/

/-- Claim C1 (amended): on every submission attempt the loading-step
interval ends up deactivated, deactivated exactly once and never leaked;
clearInterval however is invoked twice, not once, on every failure path
that throws after the fetch resolved — a non-2xx HTTP status, an HTTP
2xx response whose body fails to parse as JSON, and a non-success
payload status (the pre-throw clear plus the catch clear) — and exactly
once on the success path and on a rejection of the fetch promise itself,
which throws before the first clear. -/
theorem timer_always_cleared (h : Home) (out : FetchOutcome)
    (hc : canSubmit h = true) :
    ((handleSubmit h out).2.stops = 1) ∧
    ((handleSubmit h out).2.active = false) ∧
    ((handleSubmit h out).2.clearCalls = clearCallsOn out) := by
  cases out with
  | transportFailure msg => simp [handleSubmit, hc, clearTimer, clearCallsOn]
  | httpFailure detail status =>
      simp [handleSubmit, hc, clearTimer, clearCallsOn]
  | jsonFailure msg => simp [handleSubmit, hc, clearTimer, clearCallsOn]
  | payload status errors rs =>
      by_cases hs : status ≠ "success".data
      · simp [handleSubmit, hc, clearTimer, clearCallsOn, hs]
      · simp [handleSubmit, hc, clearTimer, clearCallsOn, hs]

/-- Witness for C1 (amended) at a submittable state: on a rejection of
the fetch promise the interval is stopped exactly once and clearInterval
ran once, and on an unparseable 2xx body clearInterval ran the two times
the control flow dictates while the interval still stopped exactly once. -/
theorem timer_always_cleared_witness :
    canSubmit sampleHome = true ∧
    (handleSubmit sampleHome
      (FetchOutcome.transportFailure "Failed to fetch".data)).2.stops = 1 ∧
    (handleSubmit sampleHome
      (FetchOutcome.transportFailure "Failed to fetch".data)).2.clearCalls =
      clearCallsOn (FetchOutcome.transportFailure "Failed to fetch".data) ∧
    (handleSubmit sampleHome
      (FetchOutcome.jsonFailure "Unexpected end of JSON input".data)).2.stops = 1 ∧
    (handleSubmit sampleHome
      (FetchOutcome.jsonFailure "Unexpected end of JSON input".data)).2.clearCalls =
      clearCallsOn (FetchOutcome.jsonFailure "Unexpected end of JSON input".data) :=
  ⟨by decide,
   (timer_always_cleared sampleHome
     (FetchOutcome.transportFailure "Failed to fetch".data) (by decide)).1,
   (timer_always_cleared sampleHome
     (FetchOutcome.transportFailure "Failed to fetch".data) (by decide)).2.2,
   (timer_always_cleared sampleHome
     (FetchOutcome.jsonFailure "Unexpected end of JSON input".data) (by decide)).1,
   (timer_always_cleared sampleHome
     (FetchOutcome.jsonFailure "Unexpected end of JSON input".data) (by decide)).2.2⟩

/-- Claim C1 counterexample: on two failure paths of a started attempt —
a non-2xx HTTP status, and an HTTP 2xx response whose body fails to
parse as JSON — clearInterval is invoked twice, once after fetch
resolves and once more in the catch block, not exactly once as claimed. -/
theorem clear_called_twice_on_http_failure :
    (handleSubmit sampleHome (FetchOutcome.httpFailure none 500)).2.clearCalls = 2 ∧
    ¬ (handleSubmit sampleHome (FetchOutcome.httpFailure none 500)).2.clearCalls = 1 ∧
    (handleSubmit sampleHome
      (FetchOutcome.jsonFailure "Unexpected end of JSON input".data)).2.clearCalls = 2 ∧
    ¬ (handleSubmit sampleHome
      (FetchOutcome.jsonFailure "Unexpected end of JSON input".data)).2.clearCalls = 1 := by
  decide

/-! ### Claim C4: non-success payload status -/

/-- Claim C4 (amended): for every response whose payload status is not
"success", even with HTTP 2xx, the workflow enters the Error state, the
stored result sequence is not populated from that response, and the
displayed message is the errors array joined by ", " when that join is
non-empty, with the generic fallback when the array is absent or the
join is empty. -/
theorem payload_failure_to_error (h : Home) (status : List Char)
    (errors : Option (List (List Char))) (rs : List DrugResult)
    (hc : canSubmit h = true) (hs : status ≠ "success".data) :
    ((handleSubmit h (FetchOutcome.payload status errors rs)).1.state =
      AppState.error) ∧
    ((handleSubmit h (FetchOutcome.payload status errors rs)).1.results =
      h.results) ∧
    ((handleSubmit h (FetchOutcome.payload status errors rs)).1.error =
      joinErrors errors) := by
  simp [handleSubmit, hc, hs]

/-- Witness for C4 (amended): an HTTP 2xx payload with status "error"
and one server message ends in the Error state, keeps the results
untouched and displays the joined errors array. -/
theorem payload_failure_to_error_witness :
    (handleSubmit sampleHome
      (FetchOutcome.payload "error".data (some ["bad input".data]) [])).1.state =
      AppState.error ∧
    (handleSubmit sampleHome
      (FetchOutcome.payload "error".data (some ["bad input".data]) [])).1.error =
      joinErrors (some ["bad input".data]) :=
  ⟨(payload_failure_to_error sampleHome "error".data (some ["bad input".data]) []
      (by decide) (by decide)).1,
   (payload_failure_to_error sampleHome "error".data (some ["bad input".data]) []
      (by decide) (by decide)).2.2⟩

/-- Claim C4 counterexample: with a present but empty errors array the
displayed message is the generic fallback "Analysis failed", not the
join of the errors array (which is empty). -/
theorem empty_errors_fallback :
    (handleSubmit sampleHome
      (FetchOutcome.payload "error".data (some []) [])).1.error =
      "Analysis failed".data ∧
    (handleSubmit sampleHome
      (FetchOutcome.payload "error".data (some []) [])).1.error ≠
      List.intercalate ", ".data ([] : List (List Char)) := by
  decide

end PharmaGuard
